import Mathlib

/-!
Verification development for `implementation/SAMAT/train.py` (ku-coopt).

The file shallowly embeds the functions of `train.py` that the documented
properties concern: the periodic-checkpoint condition, the best-validation
tracker, the top-k accuracy meter caching (`calculate_acc_adv_acc`), the
meter-caching loop and log emission of `adv_learning`, the run-title
builder `get_argument_title`, the device-selection prologue of `main`, and
the orchestrator's per-epoch statement order.  Scores and scalar metrics
are modelled as rationals (stand-ins for the floats of the source), batches
as lists, and fallible Python evaluation as `Except`.
-/

namespace SAMAT

/-! ## Periodic checkpoint condition (`main`, line 197)

The source guard is `if (epoch == 0) or (epoch + 1 % 10 == 0):`.  In Python
`%` binds tighter than `+`, so the second disjunct reads
`epoch + (1 % 10) == 0`; Lean's precedence is the same, so the definition
below is the literal transcription. -/

def interval_checkpoint_cond (epoch : Nat) : Bool :=
  (epoch == 0) || (epoch + 1 % 10 == 0)

/-- Modelled from the spec: the interval policy "every 10 epochs starting
at 0" described in §8 of the design document (periodic checkpoints at
epochs 0, 10, 20 of a 25-epoch run). -/
def interval_checkpoint_spec (epoch : Nat) : Bool :=
  epoch % 10 == 0

/-! ## Best-validation tracker (`main`, lines 181, 191-193)

`best_val` starts at `0.0`; each epoch the validation top-1 accuracy is
compared with `>`, and on strict improvement the tracker is overwritten and
`best.pth` is saved.  `best_step` is one iteration (returning the new
tracker value and whether the checkpoint was written); `best_run` threads
the tracker through a whole run, given the sequence of per-epoch validation
top-1 accuracies. -/

def best_step (best acc : ℚ) : ℚ × Bool :=
  if acc > best then (acc, true) else (best, false)

def best_run_aux (best : ℚ) : List ℚ → List (ℚ × Bool)
  | [] => []
  | a :: rest => best_step best a :: best_run_aux (best_step best a).1 rest

def best_run (accs : List ℚ) : List (ℚ × Bool) :=
  best_run_aux 0 accs

/-! ## Orchestrator events (`main`, lines 181-198)

One event per side-effecting statement of the epoch loop body, in source
order: cache the tracker into `val_meters["best_val"]`, the training sweep,
`scheduler.step()`, the validation sweep, the best-tracker comparison
(`bestCmp`, with `bestCkpt` emitted when `best.pth` is saved), the
`val/best_val` scalar log, and the interval-checkpoint test
(`intervalCheck`, with `intervalCkpt` emitted when `epoch_<n>.pth` is
saved). -/

inductive Ev
  | cacheBestVal | trainSweep | schedStep | valSweep
  | bestCmp | bestCkpt | logBestVal | intervalCheck | intervalCkpt
deriving DecidableEq

/-- `adv_learning` (lines 96-136) ends without a `return` statement in both
modes, so a call evaluates to Python `None`; modelled as `none`.  A genuine
result dictionary is modelled as `some` of a lookup function. -/
def adv_learning_return : Option (String → ℚ) := none

/-- The subscript expression `results["top1_accuracy"]` (line 191): on
`None` it raises a `TypeError`, otherwise it looks the key up. -/
def subscript_top1 (results : Option (String → ℚ)) : Except String ℚ :=
  match results with
  | none => .error "TypeError: NoneType object is not subscriptable"
  | some m => .ok (m "top1_accuracy")

/-- One iteration of the epoch loop (`main`, lines 182-198), given the
value the validation-sweep call evaluated to.  Returns the emitted events
and either the updated tracker or the raised exception. -/
def epoch_body (results : Option (String → ℚ)) (epoch : Nat) (best : ℚ) :
    List Ev × Except String ℚ :=
  let evs := [Ev.cacheBestVal, Ev.trainSweep, Ev.schedStep, Ev.valSweep]
  match subscript_top1 results with
  | .error e => (evs, .error e)
  | .ok acc =>
      let s := best_step best acc
      (evs ++ [Ev.bestCmp] ++ (if s.2 then [Ev.bestCkpt] else [])
           ++ [Ev.logBestVal] ++ [Ev.intervalCheck]
           ++ (if interval_checkpoint_cond epoch then [Ev.intervalCkpt] else []),
       .ok s.1)

/-- The epoch loop `for epoch in range(args.epochs)`, threading the tracker
and stopping at the first raised exception.  `resultsOf epoch` is what the
epoch's validation-sweep call evaluated to. -/
def run_epochs (resultsOf : Nat → Option (String → ℚ)) :
    Nat → Nat → ℚ → List Ev × Except String ℚ
  | _, 0, best => ([], .ok best)
  | epoch, fuel + 1, best =>
      match epoch_body (resultsOf epoch) epoch best with
      | (evs, .error e) => (evs, .error e)
      | (evs, .ok best') =>
          let r := run_epochs resultsOf (epoch + 1) fuel best'
          (evs ++ r.1, r.2)

/-- `main` as written: every validation sweep evaluates to
`adv_learning_return` (= `None`), `best_val` starts at `0.0`, epochs run
from 0. -/
def main_run (numEpochs : Nat) : List Ev × Except String ℚ :=
  run_epochs (fun _ => adv_learning_return) 0 numEpochs 0

/-- The orchestration with the `None`-return slip abstracted away:
`f epoch` is the validation top-1 accuracy the flushed meters of epoch
`epoch` would report. -/
def orchestrator_trace (numEpochs : Nat) (f : Nat → ℚ) : List Ev :=
  (run_epochs (fun e => some (fun _ => f e)) 0 numEpochs 0).1

lemma best_step_fst (b a : ℚ) : (best_step b a).1 = max b a := by
  unfold best_step
  split_ifs with h
  · exact (max_eq_right h.le).symm
  · exact (max_eq_left (not_lt.mp h)).symm

lemma best_run_aux_get? (pre post : List ℚ) (a : ℚ) :
    ∀ b : ℚ, (best_run_aux b (pre ++ a :: post)).get? pre.length =
      some (best_step (pre.foldl max b) a) := by
  induction pre with
  | nil => intro b; rfl
  | cons p pre ih =>
      intro b
      simp only [List.cons_append, best_run_aux, List.length_cons, List.get?,
        List.foldl_cons]
      rw [best_step_fst]
      exact ih (max b p)

/-! ## Lemmas about the orchestrator model -/

/-- The events of one epoch whose kinds the ordering claims talk about:
sweeps, the scheduler step, the best comparison and the interval test. -/
def core_ev (v : Ev) : Bool :=
  match v with
  | .trainSweep | .schedStep | .valSweep | .bestCmp | .intervalCheck => true
  | _ => false

/-- The core events of one epoch, in the order `main` executes them. -/
def sweep_block : List Ev :=
  [Ev.trainSweep, Ev.schedStep, Ev.valSweep, Ev.bestCmp, Ev.intervalCheck]

lemma run_epochs_succ_some (f : Nat → ℚ) (epoch fuel : Nat) (best : ℚ) :
    run_epochs (fun e => some (fun _ => f e)) epoch (fuel + 1) best =
      (([Ev.cacheBestVal, Ev.trainSweep, Ev.schedStep, Ev.valSweep]
          ++ [Ev.bestCmp] ++ (if (best_step best (f epoch)).2 then [Ev.bestCkpt] else [])
          ++ [Ev.logBestVal] ++ [Ev.intervalCheck]
          ++ (if interval_checkpoint_cond epoch then [Ev.intervalCkpt] else []))
        ++ (run_epochs (fun e => some (fun _ => f e)) (epoch + 1) fuel
              (best_step best (f epoch)).1).1,
       (run_epochs (fun e => some (fun _ => f e)) (epoch + 1) fuel
          (best_step best (f epoch)).1).2) := rfl

lemma run_epochs_core_filter (f : Nat → ℚ) :
    ∀ (fuel epoch : Nat) (best : ℚ),
      ((run_epochs (fun e => some (fun _ => f e)) epoch fuel best).1.filter core_ev) =
        (List.replicate fuel sweep_block).flatten := by
  intro fuel
  induction fuel with
  | zero => intro epoch best; rfl
  | succ n ih =>
      intro epoch best
      rw [run_epochs_succ_some]
      cases hb : (best_step best (f epoch)).2 <;>
        cases hc : interval_checkpoint_cond epoch <;>
          simp [List.filter_append, core_ev, ih, List.replicate_succ, sweep_block]

/-! ## Top-k meter caching (`calculate_acc_adv_acc`, lines 60-81)

A sample's prediction row is a list of per-class scores (ℚ for the float
scores of the source); a batch is a list of (scores, label) pairs.
`torch.topk(5)` is modelled as repeatedly extracting the highest-scoring
remaining index (lower index first on ties, torch's deterministic order on
contiguous CPU tensors), and `torch.argmax` as the left-to-right maximum
scan; both are library primitives of the source, embedded with the same
tie rule. -/

/-- Extract the pair with the largest score (leftmost on ties) and the
remaining pairs in order. -/
def pick_max : List (Nat × ℚ) → Option ((Nat × ℚ) × List (Nat × ℚ))
  | [] => none
  | p :: rest =>
      match pick_max rest with
      | none => some (p, [])
      | some (q, others) => if q.2 > p.2 then some (q, p :: others) else some (p, rest)

def topk_idx_aux : Nat → List (Nat × ℚ) → List Nat
  | 0, _ => []
  | k + 1, l =>
      match pick_max l with
      | none => []
      | some (q, rest) => q.1 :: topk_idx_aux k rest

/-- `pred.topk(k)` indices for one sample, best first.  torch rejects
`k` larger than the number of classes (a `RuntimeError`); this model is
only used at rows with at least 5 scores (the program's rows have 10),
where the two agree, and merely truncates below that. -/
def topk_idx (scores : List ℚ) (k : Nat) : List Nat :=
  topk_idx_aux k scores.enum

/-- `torch.argmax` over one sample's scores (index 0 on the empty list,
which torch rejects). -/
def argmax_from (bestIdx : Nat) (bestVal : ℚ) (i : Nat) : List ℚ → Nat
  | [] => bestIdx
  | s :: rest =>
      if bestVal < s then argmax_from i s (i + 1) rest
      else argmax_from bestIdx bestVal (i + 1) rest

def argmax_idx : List ℚ → Nat
  | [] => 0
  | s :: rest => argmax_from 0 s 1 rest

/-- Lines 64-73: per sample, `corrects[:k].float().sum(0)` — the number of
occurrences of the label among the first `k` of the top-5 indices (a 0/1
value, since indices are distinct). -/
def topk_hit_count (scores : List ℚ) (y : Nat) (k : Nat) : Nat :=
  ((topk_idx scores 5).take k).count y

/-- The per-sample list `acc_list` cached into `meters[f"top{k}_accuracy"]`
by `cache_list` for one batch (line 75-77). -/
def cache_list (batch : List (List ℚ × Nat)) (k : Nat) : List Nat :=
  batch.map (fun s => topk_hit_count s.1 s.2 k)

/-- The highest-scoring pair of a list (leftmost on ties), if any. -/
def best_opt : List (Nat × ℚ) → Option (Nat × ℚ)
  | [] => none
  | p :: rest =>
      match best_opt rest with
      | none => some p
      | some q => if q.2 > p.2 then some q else some p

/-- `best_opt` seeded with an accumulator pair. -/
def best_pair (p : Nat × ℚ) (l : List (Nat × ℚ)) : Nat × ℚ :=
  match best_opt l with
  | none => p
  | some q => if q.2 > p.2 then q else p

lemma pick_max_map_fst : ∀ l : List (Nat × ℚ), (pick_max l).map Prod.fst = best_opt l := by
  intro l
  induction l with
  | nil => rfl
  | cons p rest ih =>
      simp only [pick_max, best_opt]
      rw [← ih]
      cases hr : pick_max rest with
      | none => rfl
      | some pr =>
          obtain ⟨q, others⟩ := pr
          by_cases hq : q.2 > p.2 <;> simp [hq]

lemma best_opt_cons (p : Nat × ℚ) (l : List (Nat × ℚ)) :
    best_opt (p :: l) = some (best_pair p l) := by
  simp only [best_opt, best_pair]
  cases best_opt l with
  | none => rfl
  | some q => by_cases hq : q.2 > p.2 <;> simp [hq]

lemma best_pair_cons (p x : Nat × ℚ) (l : List (Nat × ℚ)) :
    best_pair p (x :: l) = best_pair (if x.2 > p.2 then x else p) l := by
  rw [show best_pair p (x :: l) =
        (if (best_pair x l).2 > p.2 then best_pair x l else p) from by
      simp only [best_pair, best_opt_cons]]
  simp only [best_pair]
  cases hE : best_opt l with
  | none => simp [best_pair, hE]
  | some q =>
      simp only [best_pair, hE]
      by_cases h1 : q.2 > x.2 <;> by_cases h2 : x.2 > p.2
      · have h3 : q.2 > p.2 := lt_trans h2 h1
        simp [h1, h2, h3]
      · simp [h1, h2]
      · simp [h1, h2]
      · have h3 : ¬ q.2 > p.2 :=
          not_lt.mpr (le_trans (not_lt.mp h1) (not_lt.mp h2))
        simp [h1, h2, h3]

lemma argmax_from_best (t : List ℚ) :
    ∀ (i bestIdx : Nat) (bestVal : ℚ),
      argmax_from bestIdx bestVal i t = (best_pair (bestIdx, bestVal) (List.enumFrom i t)).1 := by
  induction t with
  | nil => intro i bestIdx bestVal; rfl
  | cons s t ih =>
      intro i bestIdx bestVal
      rw [List.enumFrom_cons, best_pair_cons]
      simp only [argmax_from]
      by_cases h1 : bestVal < s
      · have e1 : (if (i, s).2 > (bestIdx, bestVal).2 then (i, s) else (bestIdx, bestVal))
            = (i, s) := if_pos h1
        rw [e1, if_pos h1]
        exact ih (i + 1) i s
      · have e1 : (if (i, s).2 > (bestIdx, bestVal).2 then (i, s) else (bestIdx, bestVal))
            = (bestIdx, bestVal) := if_neg h1
        rw [e1, if_neg h1]
        exact ih (i + 1) bestIdx bestVal

lemma topk_idx_head (s : ℚ) (t : List ℚ) (k : Nat) :
    (topk_idx (s :: t) (k + 1)).head? = some (argmax_idx (s :: t)) := by
  simp only [topk_idx, argmax_idx, List.enum_cons, topk_idx_aux]
  have hfst := pick_max_map_fst ((0, s) :: List.enumFrom 1 t)
  rw [best_opt_cons] at hfst
  cases hpm : pick_max ((0, s) :: List.enumFrom 1 t) with
  | none => rw [hpm] at hfst; simp at hfst
  | some pr =>
      obtain ⟨m, rest'⟩ := pr
      rw [hpm] at hfst
      have hm : m = best_pair (0, s) (List.enumFrom 1 t) := by
        simpa using hfst
      rw [argmax_from_best t 1 0 s]
      simp [hm]

lemma topk_hit_count_one (s : ℚ) (t : List ℚ) (y : Nat) :
    topk_hit_count (s :: t) y 1 = if argmax_idx (s :: t) = y then 1 else 0 := by
  have h := topk_idx_head s t 4
  cases hl : topk_idx (s :: t) 5 with
  | nil => rw [hl] at h; exact absurd h (by simp)
  | cons h0 rest =>
      rw [hl] at h
      have h0eq : h0 = argmax_idx (s :: t) := by simpa using h
      unfold topk_hit_count
      have ht : ((topk_idx (s :: t) 5).take 1) = [h0] := by rw [hl]; rfl
      rw [ht, h0eq]
      by_cases he : argmax_idx (s :: t) = y <;> simp [he, List.count_cons]

lemma topk_hit_count_mono (scores : List ℚ) (y : Nat) {j k : Nat} (h : j ≤ k) :
    topk_hit_count scores y j ≤ topk_hit_count scores y k := by
  unfold topk_hit_count
  exact ((List.take_isPrefix_take).mpr (Or.inl h)).sublist.count_le y

lemma cache_list_sum_mono (batch : List (List ℚ × Nat)) {j k : Nat} (h : j ≤ k) :
    (cache_list batch j).sum ≤ (cache_list batch k).sum := by
  unfold cache_list
  induction batch with
  | nil => simp
  | cons b rest ih =>
      simp only [List.map_cons, List.sum_cons]
      exact Nat.add_le_add (topk_hit_count_mono b.1 b.2 h) ih

/-! ## The top-k caching gate of `adv_learning` (lines 109-125)

Inside the batch loop, the losses are cached on every batch, but
`calculate_acc_adv_acc` — the only caller of the top-k meters' `cache_list`
— runs under `if (batch_idx % 10) == 0:` (line 123). -/

def adv_topk_cached_aux (k : Nat) : Nat → List (List (List ℚ × Nat)) → List Nat
  | _, [] => []
  | i, b :: rest =>
      (if i % 10 == 0 then cache_list b k else []) ++ adv_topk_cached_aux k (i + 1) rest

/-- The per-sample top-k hit values cached into `meters[f"top{k}_accuracy"]`
over one epoch sweep of `adv_learning`. -/
def adv_topk_cached (k : Nat) (batches : List (List (List ℚ × Nat))) : List Nat :=
  adv_topk_cached_aux k 0 batches

/-- Modelled from the spec: "running mean of a 0/1 hit indicator per
sample, accumulated over the whole epoch from lists of per-sample hits" —
caching the hit list of every batch of the epoch. -/
def spec_topk_cached (k : Nat) (batches : List (List (List ℚ × Nat))) : List Nat :=
  batches.flatMap (fun b => cache_list b k)

lemma adv_topk_cached_aux_eq (k : Nat) (batches : List (List (List ℚ × Nat))) :
    ∀ i : Nat,
      adv_topk_cached_aux k i batches =
        ((List.enumFrom i batches).filter (fun p => p.1 % 10 == 0)).flatMap
          (fun p => cache_list p.2 k) := by
  induction batches with
  | nil => intro i; rfl
  | cons b rest ih =>
      intro i
      rw [List.enumFrom_cons]
      simp only [adv_topk_cached_aux, List.filter_cons]
      rcases hi : (i % 10 == 0) with _ | _ <;>
        simp [hi, ih (i + 1), List.flatMap_cons]

lemma count_sched_flatten (n : Nat) :
    List.count Ev.schedStep (List.replicate n sweep_block).flatten = n := by
  induction n with
  | zero => rfl
  | succ m ih =>
      rw [List.replicate_succ, List.flatten_cons, List.count_append, ih]
      have h : List.count Ev.schedStep sweep_block = 1 := rfl
      rw [h]
      omega

/-! ## The validation sweep as a state transformer (`adv_learning`, lines 106-127)

The state carries the model parameters (an abstract tensor list), torch's
global gradient-tracking flag and a count of optimizer updates.  `AT_TRAIN`
and `AT_VAL` live in `utility/trades`, which is not under `src/`; they are
modelled from the spec (§4.2): the training variant drives the two-pass
parameter update (abstracted as `upd`, one optimizer update per batch), and
the validation variant is "same loss computation, no gradient steps, no
optimizer invocation" — it returns losses and predictions only, leaving the
parameters and the optimizer untouched.  The call record notes the grad
flag at call time and whether the optimizer argument was passed (line 115
passes it to `AT_TRAIN`; line 117 calls `AT_VAL` without it). -/

structure TrainState where
  params : List ℚ
  gradEnabled : Bool
  optSteps : Nat
deriving DecidableEq

inductive CallKind
  | atTrain | atVal
deriving DecidableEq

structure ATCall where
  kind : CallKind
  gradEnabled : Bool
  optimizerPassed : Bool
deriving DecidableEq

/-- The batch loop of `adv_learning` (lines 109-125), restricted to the
parameter/optimizer/grad effects; `upd` is the spec-modelled `AT_TRAIN`
parameter update. -/
def sweep_batches (mode : String) (upd : List ℚ → List ℚ) :
    Nat → TrainState → TrainState × List ATCall
  | 0, st => (st, [])
  | n + 1, st =>
      let step :=
        if mode = "train" then
          ({ st with params := upd st.params, optSteps := st.optSteps + 1 },
            ATCall.mk CallKind.atTrain st.gradEnabled true)
        else
          (st, ATCall.mk CallKind.atVal st.gradEnabled false)
      let rest := sweep_batches mode upd n step.1
      (rest.1, step.2 :: rest.2)

/-- `adv_learning` (lines 106-127): in `"val"` mode gradient tracking is
disabled before the batch loop (line 108) and re-enabled after it
(line 127). -/
def adv_learning_sweep (mode : String) (upd : List ℚ → List ℚ)
    (numBatches : Nat) (st : TrainState) : TrainState × List ATCall :=
  let st1 := if mode = "val" then { st with gradEnabled := false } else st
  let swept := sweep_batches mode upd numBatches st1
  let st3 := if mode = "val" then { swept.1 with gradEnabled := true } else swept.1
  (st3, swept.2)

lemma sweep_batches_val (upd : List ℚ → List ℚ) :
    ∀ (n : Nat) (st : TrainState),
      sweep_batches "val" upd n st =
        (st, List.replicate n (ATCall.mk CallKind.atVal st.gradEnabled false)) := by
  intro n
  induction n with
  | zero => intro st; rfl
  | succ m ih =>
      intro st
      simp [sweep_batches, ih st, List.replicate_succ]

/-! ## Log emission (`adv_learning`, lines 129-136; `main`, line 196)

Each emitted record is a (tag, value) pair as handed to
`writer.add_scalar`; the epoch argument is common to the whole flush and
omitted.  The loop at lines 130-135 skips the reserved `"best_val"` key and
prefixes `train/` in train mode and `adv_val/` otherwise; line 136 logs the
learning rate under `<mode>/lr`. -/

def sweep_log_records (mode : String) : List (String × ℚ) → List (String × ℚ)
  | [] => []
  | (k, v) :: rest =>
      (if k ≠ "best_val" then
        [((if mode = "train" then "train/" ++ k else "adv_val/" ++ k), v)]
       else []) ++ sweep_log_records mode rest

def adv_learning_logs (mode : String) (results : List (String × ℚ)) (lr : ℚ) :
    List (String × ℚ) :=
  sweep_log_records mode results ++ [(mode ++ "/lr", lr)]

/-- `main` line 196: `writer.add_scalar("val/best_val", best_val, epoch)`. -/
def best_val_log (best : ℚ) : String × ℚ := ("val/best_val", best)

lemma sweep_log_records_eq (mode : String) (results : List (String × ℚ)) :
    sweep_log_records mode results =
      (results.filter (fun kv => kv.1 ≠ "best_val")).map
        (fun kv => ((if mode = "train" then "train/" ++ kv.1 else "adv_val/" ++ kv.1), kv.2)) := by
  induction results with
  | nil => rfl
  | cons kv rest ih =>
      obtain ⟨k, v⟩ := kv
      simp only [sweep_log_records, List.filter_cons]
      by_cases hk : k = "best_val" <;> simp [hk, ih]

lemma append_ne_of_ne (p a b : String) (h : a ≠ b) : p ++ a ≠ p ++ b := by
  intro hc
  apply h
  have hd := congrArg String.data hc
  rw [String.data_append, String.data_append] at hd
  exact String.ext (List.append_cancel_left hd)

/-! ## Run-title construction (`get_argument_title`, lines 45-58)

Python attribute values are modelled by `PyVal`; an argument namespace plus
parser defaults is a list of (name, value, default) triples in `vars(args)`
order.  The loop appends `f"{arg}={value}"` when the value differs from the
parser default, and also when the value is the boolean `True` (the `elif`
at line 55, which fires for booleans left at a `True` default). -/

inductive PyVal
  | VBool : Bool → PyVal
  | VInt : Int → PyVal
  | VFloat : ℚ → PyVal
  | VStr : String → PyVal
deriving DecidableEq

/-- Python `str()` as used by the f-string. -/
def py_str : PyVal → String
  | .VBool true => "True"
  | .VBool false => "False"
  | .VInt n => toString n
  | .VFloat q => toString q
  | .VStr s => s

def title_entries : List (String × PyVal × PyVal) → List String
  | [] => []
  | (name, v, d) :: rest =>
      (if v ≠ d then [name ++ "=" ++ py_str v]
       else if v = PyVal.VBool true then [name ++ "=" ++ py_str v]
       else []) ++ title_entries rest

def get_argument_title (argsL : List (String × PyVal × PyVal)) : String :=
  String.intercalate "," (title_entries argsL)

/-- The parser defaults of `get_arguments` (lines 22-40); `rho` is declared
with `type=int` but its default is the float `2.0`, and argparse applies
`type` only to command-line strings, so the unspecified default stays a
float. -/
def samat_defaults : List (String × PyVal) :=
  [("adaptive", .VBool true), ("batch_size", .VInt 128), ("depth", .VInt 16),
   ("dropout", .VFloat 0), ("epochs", .VInt 200), ("label_smoothing", .VFloat (1/10)),
   ("learning_rate", .VFloat (1/10)), ("momentum", .VFloat (9/10)), ("threads", .VInt 8),
   ("rho", .VFloat 2), ("weight_decay", .VFloat (1/2000)), ("width_factor", .VInt 8),
   ("trades", .VBool false), ("sgd", .VBool false), ("beta", .VFloat 1),
   ("gpus", .VStr "0"), ("step_size", .VFloat (2/255)), ("eps", .VFloat (8/255)),
   ("perturb_step", .VInt 10)]

/-- The namespace of a run started with no command-line options: every
value equals its default. -/
def default_args : List (String × PyVal × PyVal) :=
  samat_defaults.map (fun p => (p.1, p.2, p.2))

/-! ## Device selection (`main`, lines 143-162)

When `torch.cuda.is_available()` is false, the `else` branch only prints a
warning and leaves the local variable `device` unbound; execution continues
through the path setup, `SummaryWriter`, `Cifar` and the `WideResNet(...)`
constructor, and the first use of `device` — the `.to(device)` argument at
line 162 — raises `NameError`. -/

inductive StartEv
  | deviceAssigned | warningPrinted | writerCreated | datasetCreated
  | modelConstructed | trainLoopEntered
deriving DecidableEq

def main_prologue (cudaAvailable : Bool) : List StartEv × Except String Unit :=
  let deviceVar : Option Unit := if cudaAvailable then some () else none
  let evs0 := if cudaAvailable then [StartEv.deviceAssigned] else [StartEv.warningPrinted]
  let evs1 := evs0 ++ [StartEv.writerCreated, StartEv.datasetCreated, StartEv.modelConstructed]
  match deviceVar with
  | none => (evs1, .error "NameError: name device is not defined")
  | some _ => (evs1 ++ [StartEv.trainLoopEntered], .ok ())

end SAMAT

/-- C1: `adv_learning` returns `None` in both modes (it has no `return`
statement), so in whichever epoch the loop is at, the expression
`results["top1_accuracy"]` subscripts `None` and raises; the epoch cannot
complete (the emitted trace stops at the validation sweep) and neither the
best-checkpoint branch nor the interval checkpoint is ever reached. -/
theorem SAMAT.adv_learning_none_aborts (epoch fuel : Nat) (best : ℚ) :
    SAMAT.run_epochs (fun _ => SAMAT.adv_learning_return) epoch (fuel + 1) best =
      ([SAMAT.Ev.cacheBestVal, SAMAT.Ev.trainSweep, SAMAT.Ev.schedStep, SAMAT.Ev.valSweep],
        Except.error "TypeError: NoneType object is not subscriptable")
    ∧ SAMAT.Ev.bestCkpt ∉
        (SAMAT.run_epochs (fun _ => SAMAT.adv_learning_return) epoch (fuel + 1) best).1
    ∧ SAMAT.Ev.intervalCkpt ∉
        (SAMAT.run_epochs (fun _ => SAMAT.adv_learning_return) epoch (fuel + 1) best).1 := by
  have h0 : SAMAT.run_epochs (fun _ => SAMAT.adv_learning_return) epoch (fuel + 1) best =
      ([SAMAT.Ev.cacheBestVal, SAMAT.Ev.trainSweep, SAMAT.Ev.schedStep, SAMAT.Ev.valSweep],
        Except.error "TypeError: NoneType object is not subscriptable") := rfl
  refine ⟨h0, ?_, ?_⟩ <;> rw [h0] <;> decide

/-- C2 (precedence bug): the source guard `(epoch == 0) or (epoch + 1 % 10 == 0)`
evaluates `1 % 10` first, so it is true only at epoch 0: in a 25-epoch run
no `epoch_<n>.pth` is written at epochs 10 or 20 (nor anywhere past 0),
while the specified interval policy demands writes there. -/
theorem SAMAT.interval_checkpoint_precedence_bug :
    SAMAT.interval_checkpoint_cond 10 = false
    ∧ SAMAT.interval_checkpoint_cond 20 = false
    ∧ SAMAT.interval_checkpoint_spec 10 = true
    ∧ SAMAT.interval_checkpoint_spec 20 = true
    ∧ (∀ epoch : Nat, SAMAT.interval_checkpoint_cond epoch = decide (epoch = 0)) := by
  refine ⟨rfl, rfl, rfl, rfl, ?_⟩
  intro epoch
  rcases epoch with _ | n <;> simp [SAMAT.interval_checkpoint_cond]

/-- C10: with the validation results abstracted as the accuracies `f`, the
orchestrator's trace over `numEpochs` epochs consists, epoch after epoch,
of exactly the block "training sweep, one scheduler step, validation sweep,
best-tracker comparison, periodic-checkpoint test" in that order; in
particular the scheduler advances exactly once per epoch, between the
training and validation sweeps, and never during or after validation
within the same epoch. -/
theorem SAMAT.orchestrator_epoch_order (numEpochs : Nat) (f : Nat → ℚ) :
    (SAMAT.orchestrator_trace numEpochs f).filter SAMAT.core_ev =
      (List.replicate numEpochs SAMAT.sweep_block).flatten
    ∧ (SAMAT.orchestrator_trace numEpochs f).count SAMAT.Ev.schedStep = numEpochs := by
  have h1 : (SAMAT.orchestrator_trace numEpochs f).filter SAMAT.core_ev =
      (List.replicate numEpochs SAMAT.sweep_block).flatten :=
    SAMAT.run_epochs_core_filter f numEpochs 0 0
  refine ⟨h1, ?_⟩
  have hcore : SAMAT.core_ev SAMAT.Ev.schedStep = true := rfl
  rw [← List.count_filter hcore, h1]
  exact SAMAT.count_sched_flatten numEpochs

/-- C3: for every epoch, the tracker is updated and `best.pth` written
exactly when that epoch's validation top-1 accuracy strictly exceeds the
current best (the running maximum, initialised `0.0`, of the earlier
accuracies); for the accuracy sequence [0.5, 0.4, 0.6, 0.6, 0.7] the
best-so-far sequence is [0.5, 0.5, 0.6, 0.6, 0.7] with writes exactly at
epochs 0, 2, 4. -/
theorem SAMAT.best_tracker_strict_improvement :
    (∀ (pre post : List ℚ) (a : ℚ),
      (SAMAT.best_run (pre ++ a :: post)).get? pre.length =
        some (if a > pre.foldl max 0 then (a, true) else (pre.foldl max 0, false)))
    ∧ SAMAT.best_run [1/2, 2/5, 3/5, 3/5, 7/10] =
        [(1/2, true), (1/2, false), (3/5, true), (3/5, false), (7/10, true)] := by
  constructor
  · intro pre post a
    exact SAMAT.best_run_aux_get? pre post a 0
  · norm_num [SAMAT.best_run, SAMAT.best_run_aux, SAMAT.best_step]

/-- C4 is false on the code: `calculate_acc_adv_acc` runs only on batches
with `batch_idx % 10 == 0`, so with two one-sample batches of 6-class
score rows (wide enough for the `topk(5)` calls of lines 64-65) the second
batch's sample — a top-1 miss — is never cached into the top-k meters,
and the epoch aggregate is not the mean over every sample of every
batch. -/
theorem SAMAT.topk_cache_misses_batches :
    SAMAT.adv_topk_cached 1
        [[([0, 5, 1, 2, 3, 4], 1)], [([5, 0, 1, 2, 3, 4], 1)]] = [1]
    ∧ SAMAT.spec_topk_cached 1
        [[([0, 5, 1, 2, 3, 4], 1)], [([5, 0, 1, 2, 3, 4], 1)]] = [1, 0]
    ∧ SAMAT.adv_topk_cached 1
        [[([0, 5, 1, 2, 3, 4], 1)], [([5, 0, 1, 2, 3, 4], 1)]] ≠
        SAMAT.spec_topk_cached 1
          [[([0, 5, 1, 2, 3, 4], 1)], [([5, 0, 1, 2, 3, 4], 1)]] := by
  refine ⟨by decide, by decide, by decide⟩

/-- C4 amended: over an epoch sweep the meters `top1..top4_accuracy` (and
the adversarial twins, which cache through the same guarded call)
accumulate the per-sample 0/1 hit values of exactly those batches whose
index is divisible by 10 — the ones on which the progress print fires —
not of every batch. -/
theorem SAMAT.topk_cache_every_tenth (k : Nat) (batches : List (List (List ℚ × Nat))) :
    SAMAT.adv_topk_cached k batches =
      (batches.enum.filter (fun p => p.1 % 10 == 0)).flatMap
        (fun p => SAMAT.cache_list p.2 k) := by
  have h := SAMAT.adv_topk_cached_aux_eq k batches 0
  simpa [SAMAT.adv_topk_cached, List.enum] using h

/-- C5: for every batch whose samples each have at least one class score,
the per-sample top-1 hit values cached into the meters coincide with the
direct `argmax(pred) == label` comparison of lines 62-63, each sample's
top-j hit count is monotone in j, and so is the batch total. -/
theorem SAMAT.topk_meter_top1_and_mono (batch : List (List ℚ × Nat))
    (hne : ∀ p ∈ batch, p.1 ≠ []) :
    SAMAT.cache_list batch 1 =
      batch.map (fun p => if SAMAT.argmax_idx p.1 = p.2 then 1 else 0)
    ∧ (∀ p ∈ batch, ∀ j k : Nat, j ≤ k →
        SAMAT.topk_hit_count p.1 p.2 j ≤ SAMAT.topk_hit_count p.1 p.2 k)
    ∧ (∀ j k : Nat, j ≤ k →
        (SAMAT.cache_list batch j).sum ≤ (SAMAT.cache_list batch k).sum) := by
  refine ⟨?_, ?_, ?_⟩
  · unfold SAMAT.cache_list
    apply List.map_congr_left
    intro p hp
    rcases hscores : p.1 with _ | ⟨s, t⟩
    · exact absurd hscores (hne p hp)
    · exact SAMAT.topk_hit_count_one s t p.2
  · intro p _ j k hjk
    exact SAMAT.topk_hit_count_mono p.1 p.2 hjk
  · intro j k hjk
    exact SAMAT.cache_list_sum_mono batch hjk

/-- Witness for C5 at a concrete two-sample batch. -/
theorem SAMAT.topk_meter_top1_and_mono_witness :
    (∀ p ∈ ([([1, 3, 2, 5, 4, 0], 3), ([2, 1, 0, 0, 0], 0)] : List (List ℚ × Nat)), p.1 ≠ [])
    ∧ (SAMAT.cache_list [([1, 3, 2, 5, 4, 0], 3), ([2, 1, 0, 0, 0], 0)] 1 =
        ([([1, 3, 2, 5, 4, 0], 3), ([2, 1, 0, 0, 0], 0)] : List (List ℚ × Nat)).map
          (fun p => if SAMAT.argmax_idx p.1 = p.2 then 1 else 0)
       ∧ (∀ p ∈ ([([1, 3, 2, 5, 4, 0], 3), ([2, 1, 0, 0, 0], 0)] : List (List ℚ × Nat)),
            ∀ j k : Nat, j ≤ k →
              SAMAT.topk_hit_count p.1 p.2 j ≤ SAMAT.topk_hit_count p.1 p.2 k)
       ∧ (∀ j k : Nat, j ≤ k →
            (SAMAT.cache_list [([1, 3, 2, 5, 4, 0], 3), ([2, 1, 0, 0, 0], 0)] j).sum ≤
              (SAMAT.cache_list [([1, 3, 2, 5, 4, 0], 3), ([2, 1, 0, 0, 0], 0)] k).sum)) :=
  ⟨by decide, SAMAT.topk_meter_top1_and_mono _ (by decide)⟩

/-- C6: in `"val"` mode the whole batch loop runs with gradient tracking
disabled (re-enabled only after it), every per-batch call is `AT_VAL` with
no optimizer argument, no optimizer update happens, and the model
parameters are unchanged by the sweep. -/
theorem SAMAT.val_sweep_frame (upd : List ℚ → List ℚ) (numBatches : Nat)
    (st : SAMAT.TrainState) :
    (SAMAT.adv_learning_sweep "val" upd numBatches st).1.params = st.params
    ∧ (SAMAT.adv_learning_sweep "val" upd numBatches st).1.optSteps = st.optSteps
    ∧ (SAMAT.adv_learning_sweep "val" upd numBatches st).1.gradEnabled = true
    ∧ ∀ c ∈ (SAMAT.adv_learning_sweep "val" upd numBatches st).2,
        c.kind = SAMAT.CallKind.atVal ∧ c.gradEnabled = false
          ∧ c.optimizerPassed = false := by
  have hmain : SAMAT.adv_learning_sweep "val" upd numBatches st =
      ({ st with gradEnabled := true },
        List.replicate numBatches (SAMAT.ATCall.mk SAMAT.CallKind.atVal false false)) := by
    obtain ⟨ps, ge, os⟩ := st
    simp [SAMAT.adv_learning_sweep, SAMAT.sweep_batches_val]
  refine ⟨by rw [hmain], by rw [hmain], by rw [hmain], ?_⟩
  intro c hc
  rw [hmain] at hc
  have hce := List.eq_of_mem_replicate hc
  rw [hce]
  exact ⟨rfl, rfl, rfl⟩

/-- C7: the flushed meter records are emitted under `train/<name>` for the
training sweep and `adv_val/<name>` for the validation sweep, skipping the
reserved `best_val` meter (no `train/best_val` or `adv_val/best_val` record
is ever emitted); the learning rate goes to `<mode>/lr` and the tracker to
`val/best_val`. -/
theorem SAMAT.log_record_namespaces (results : List (String × ℚ)) (lr best : ℚ) :
    SAMAT.adv_learning_logs "train" results lr =
      (results.filter (fun kv => kv.1 ≠ "best_val")).map
        (fun kv => ("train/" ++ kv.1, kv.2)) ++ [("train/lr", lr)]
    ∧ SAMAT.adv_learning_logs "val" results lr =
      (results.filter (fun kv => kv.1 ≠ "best_val")).map
        (fun kv => ("adv_val/" ++ kv.1, kv.2)) ++ [("val/lr", lr)]
    ∧ (∀ v : ℚ, ("train/best_val", v) ∉ SAMAT.adv_learning_logs "train" results lr)
    ∧ (∀ v : ℚ, ("adv_val/best_val", v) ∉ SAMAT.adv_learning_logs "val" results lr)
    ∧ SAMAT.best_val_log best = ("val/best_val", best) := by
  have ht : SAMAT.sweep_log_records "train" results =
      (results.filter (fun kv => kv.1 ≠ "best_val")).map
        (fun kv => ("train/" ++ kv.1, kv.2)) := by
    simpa using SAMAT.sweep_log_records_eq "train" results
  have hv : SAMAT.sweep_log_records "val" results =
      (results.filter (fun kv => kv.1 ≠ "best_val")).map
        (fun kv => ("adv_val/" ++ kv.1, kv.2)) := by
    simpa using SAMAT.sweep_log_records_eq "val" results
  refine ⟨?_, ?_, ?_, ?_, rfl⟩
  · simp [SAMAT.adv_learning_logs, ht]
  · simp [SAMAT.adv_learning_logs, hv]
  · intro v hmem
    simp only [SAMAT.adv_learning_logs, ht] at hmem
    rcases List.mem_append.mp hmem with hm | hm
    · obtain ⟨kv, hkvf, heq⟩ := List.mem_map.mp hm
      have h1 : "train/" ++ kv.1 = "train/best_val" := congrArg Prod.fst heq
      have h2 : kv.1 ≠ "best_val" := by simpa using (List.mem_filter.mp hkvf).2
      apply SAMAT.append_ne_of_ne "train/" kv.1 "best_val" h2
      rw [h1]
      decide
    · have h3 : ("train/best_val" : String) = "train/lr" :=
        congrArg Prod.fst (List.mem_singleton.mp hm)
      exact absurd h3 (by decide)
  · intro v hmem
    simp only [SAMAT.adv_learning_logs, hv] at hmem
    rcases List.mem_append.mp hmem with hm | hm
    · obtain ⟨kv, hkvf, heq⟩ := List.mem_map.mp hm
      have h1 : "adv_val/" ++ kv.1 = "adv_val/best_val" := congrArg Prod.fst heq
      have h2 : kv.1 ≠ "best_val" := by simpa using (List.mem_filter.mp hkvf).2
      apply SAMAT.append_ne_of_ne "adv_val/" kv.1 "best_val" h2
      rw [h1]
      decide
    · have h3 : ("adv_val/best_val" : String) = "val/lr" :=
        congrArg Prod.fst (List.mem_singleton.mp hm)
      exact absurd h3 (by decide)

/-- C8: `get_argument_title` joins with commas exactly the `name=value`
entries of the options whose value differs from the parser default,
together with every option whose value is the boolean `True` — including
booleans left at a `True` default; on an all-defaults namespace the title
is exactly `adaptive=True`. -/
theorem SAMAT.argument_title_selection (argsL : List (String × SAMAT.PyVal × SAMAT.PyVal)) :
    SAMAT.title_entries argsL =
      (argsL.filter (fun e => e.2.1 ≠ e.2.2 ∨ e.2.1 = SAMAT.PyVal.VBool true)).map
        (fun e => e.1 ++ "=" ++ SAMAT.py_str e.2.1)
    ∧ SAMAT.get_argument_title SAMAT.default_args = "adaptive=True" := by
  constructor
  · induction argsL with
    | nil => rfl
    | cons e rest ih =>
        obtain ⟨name, v, d⟩ := e
        simp only [SAMAT.title_entries, List.filter_cons]
        by_cases h1 : v = d
        · subst h1
          by_cases h2 : v = SAMAT.PyVal.VBool true
          · subst h2
            simp [ih]
          · simp [h2, ih]
        · simp [h1, ih]
  · have h : SAMAT.title_entries SAMAT.default_args = ["adaptive=True"] := by
      simp [SAMAT.default_args, SAMAT.samat_defaults, SAMAT.title_entries, SAMAT.py_str]
    rw [SAMAT.get_argument_title, h]
    decide

/-- C9 is false as a statement about the code: on a machine without CUDA,
`main` prints a warning and continues — it creates the writer and dataset
and runs the `WideResNet(...)` constructor, and only then dies with a
`NameError` on the unbound variable `device`, instead of failing fast
before building the model. -/
theorem SAMAT.missing_accelerator_not_failfast :
    SAMAT.main_prologue false =
      ([SAMAT.StartEv.warningPrinted, SAMAT.StartEv.writerCreated,
        SAMAT.StartEv.datasetCreated, SAMAT.StartEv.modelConstructed],
        Except.error "NameError: name device is not defined")
    ∧ SAMAT.StartEv.modelConstructed ∈ (SAMAT.main_prologue false).1
    ∧ SAMAT.StartEv.trainLoopEntered ∉ (SAMAT.main_prologue false).1 := by
  refine ⟨rfl, by decide, by decide⟩
